import Mathlib

/-!
Homepage candidate selection and sync-status messages.

A shallow embedding of

* `createCandidatesQuery` (`frontend/src/metabase/home/homepage/utils.ts`), and
* `getTitleMessage`, `getDescriptionMessage`
  (`frontend/src/metabase/onboarding/components/SyncStatus/SyncStatus.jsx`),

together with the properties stated about them.

JavaScript values are modelled as follows.  `undefined` is `none`.  Arrays are
lists.  The tagged template `t` of `ttag` is taken in the default locale, where
it returns the template with its expressions interpolated.  Numbers are IEEE-754
binary64 values; the nonnegative ones that occur here are kept as exact
fractions of natural numbers and every arithmetic operation rounds to nearest,
ties to even.
-/

namespace Homepage

/-- A database record as seen by `createCandidatesQuery`: the two fields the
function reads, and the remaining fields of the record (declared in `./types`),
which only `isSyncCompleted` looks at. -/
structure Database (Id Rest : Type) where
  id : Id
  is_sample : Bool
  rest : Rest

/-- The object literal `{ id: ... }` returned by `createCandidatesQuery`. -/
structure Candidate (Id : Type) where
  id : Id
deriving DecidableEq, Repr

/-- JavaScript `!dashboards`: an array, even an empty one, is truthy; `undefined` is falsy. -/
def isFalsy {Dashboard : Type} : Option (List Dashboard) → Bool
  | none => true
  | some _ => false

/-- JavaScript `dashboards.length` in a boolean position: truthy when non-zero. It is
evaluated only after `!dashboards` was false. -/
def lengthTruthy {Dashboard : Type} : Option (List Dashboard) → Bool
  | none => false
  | some ds => ds.length != 0

/-- `createCandidatesQuery(databases = [], dashboards, showXrays, enableXrays)`.
`isSyncCompleted` is imported from `metabase/lib/syncing` and is a parameter here. -/
def createCandidatesQuery {Id Rest Dashboard : Type}
    (isSyncCompleted : Database Id Rest → Bool)
    (databases : Option (List (Database Id Rest)))
    (dashboards : Option (List Dashboard))
    (showXrays enableXrays : Bool) : Option (Candidate Id) :=
  let databases := databases.getD []
  let sampleDatabase := databases.find? (fun d => d.is_sample && isSyncCompleted d)
  let userDatabase := databases.find? (fun d => !d.is_sample && isSyncCompleted d)
  if isFalsy dashboards || lengthTruthy dashboards || !showXrays || !enableXrays then
    none
  else
    match userDatabase with
    | some u => some { id := u.id }
    | none =>
      match sampleDatabase with
      | some s => some { id := s.id }
      | none => none

end Homepage

namespace JS

/-- The numbers that can arise from dividing and multiplying array lengths: `NaN`,
`+Infinity`, or a finite nonnegative value `num / den`. -/
inductive Number where
  | nan
  | posInf
  | fin (num den : Nat)
deriving DecidableEq, Repr

/-- The integer nearest to `a / b`, the even one when two are equally near. -/
def roundHalfEven (a b : Nat) : Nat :=
  let q := a / b
  let r := a % b
  if 2 * r < b then q
  else if b < 2 * r then q + 1
  else if q % 2 = 0 then q
  else q + 1

/-- The position of the leading binary digit of `n`, found by halving at most `fuel` times. -/
def log2Aux : Nat → Nat → Nat
  | 0, _ => 0
  | fuel + 1, n => if n < 2 then 0 else log2Aux fuel (n / 2) + 1

/-- The largest `e` with `2 ^ e ≤ n`, for positive `n`. -/
def log2 (n : Nat) : Nat := log2Aux n n

/-- The integer `e` with `2 ^ e ≤ a / b < 2 ^ (e + 1)`, for positive `a` and `b`. -/
def floorLog2 (a b : Nat) : Int :=
  let e0 : Int := (log2 a : Int) - (log2 b : Int)
  if b * 2 ^ e0.toNat ≤ a * 2 ^ (-e0).toNat then e0 else e0 - 1

/-- The binary64 value nearest to the exact quotient `a / b` (`b` positive): a 53-bit
significand at the exponent of `a / b`, exponent not below that of the subnormals,
`+Infinity` from `2 ^ 1024` on. -/
def roundBinary64 (a b : Nat) : Number :=
  if a = 0 then .fin 0 1
  else
    let e := max (floorLog2 a b) (-1022)
    let p : Int := 52 - e
    let m := roundHalfEven (a * 2 ^ p.toNat) (b * 2 ^ (-p).toNat)
    if 1024 ≤ e ∨ (e = 1023 ∧ m = 2 ^ 53) then .posInf
    else .fin (m * 2 ^ (-p).toNat) (2 ^ p.toNat)

/-- The quotient `a / b` of two array lengths (integers below `2 ^ 53`, exact as numbers). -/
def div (a b : Nat) : Number :=
  if b = 0 then (if a = 0 then .nan else .posInf) else roundBinary64 a b

/-- The product `x * k` of a number and a nonnegative integer literal. -/
def mul (x : Number) (k : Nat) : Number :=
  match x with
  | .nan => .nan
  | .posInf => if k = 0 then .nan else .posInf
  | .fin n d => roundBinary64 (n * k) d

/-- The results of `Math.floor` on a `Number`. -/
inductive Integral where
  | nan
  | posInf
  | int (n : Nat)
deriving DecidableEq, Repr

/-- `Math.floor`. -/
def floor : Number → Integral
  | .nan => .nan
  | .posInf => .posInf
  | .fin n d => .int (n / d)

/-- The string a template literal interpolates for a number; integers below `10 ^ 21`
are written in decimal digits. -/
def toStr : Integral → String
  | .nan => "NaN"
  | .posInf => "Infinity"
  | .int n => Nat.repr n

end JS

namespace SyncStatus

/-- A table of a database; `initial_sync` is the only field read. -/
structure Table where
  initial_sync : Bool
deriving DecidableEq, Repr

/-- A database as rendered by the `SyncStatus` popup. -/
structure Database where
  id : Nat
  name : String
  initial_sync : Bool
  tables : List Table
deriving DecidableEq, Repr

/-- The local `tables` of `getTitleMessage`:
`databases.filter(d => !d.initial_sync).flatMap(d => d.tables)`. -/
def titleTables (databases : List Database) : List Table :=
  (databases.filter (fun d => !d.initial_sync)).flatMap (fun d => d.tables)

/-- The local `donePercentage` of `getTitleMessage`:
`Math.floor((doneCount / totalCount) * 100)`. -/
def donePercentage (doneCount totalCount : Nat) : JS.Integral :=
  JS.floor (JS.mul (JS.div doneCount totalCount) 100)

/-- `getTitleMessage(databases, isOpened)`. -/
def getTitleMessage (databases : List Database) (isOpened : Bool) : String :=
  let tables := titleTables databases
  let totalCount := tables.length
  let done := databases.all (fun d => d.initial_sync)
  let doneCount := (tables.filter (fun t => t.initial_sync)).length
  let donePercentage := donePercentage doneCount totalCount
  if done then "Done!"
  else if isOpened && totalCount != 0 then "Syncing... (" ++ JS.toStr donePercentage ++ "%"
  else "Syncing..."

/-- `getDescriptionMessage(database)`. -/
def getDescriptionMessage (database : Database) : String :=
  let doneCount := (database.tables.filter (fun t => t.initial_sync)).length
  let totalCount := database.tables.length
  Nat.repr doneCount ++ " of " ++ Nat.repr totalCount ++ " done"

/-- The variant the specification compares `titleTables` with: the tables of every
database, the fully synced ones included. It is not computed by the code. -/
def specAllDatabasesTables (databases : List Database) : List Table :=
  databases.flatMap (fun d => d.tables)

/-- A database that is still syncing, with `total` tables of which the first `completed`
have `initial_sync` true. -/
def syncingDatabase (completed total : Nat) : Database :=
  { id := 1
    name := "db"
    initial_sync := false
    tables := List.replicate completed { initial_sync := true } ++
      List.replicate (total - completed) { initial_sync := false } }

end SyncStatus

/-! ## Auxiliary facts about lists and strings -/

namespace Aux

/-- In a list split at an element satisfying `p` with no earlier element satisfying
`p`, `find?` returns that element. -/
theorem find?_append_first {α : Type} (p : α → Bool) (pre post : List α) (d : α)
    (hd : p d = true) (hpre : ∀ x ∈ pre, p x = false) :
    (pre ++ d :: post).find? p = some d := by
  induction pre with
  | nil => simp [List.find?, hd]
  | cons x xs ih =>
    have hx : p x = false := hpre x (List.mem_cons_self x xs)
    have hxs : ∀ y ∈ xs, p y = false := fun y hy => hpre y (List.mem_cons_of_mem x hy)
    simp [List.find?, hx, ih hxs]

/-- A list with an element satisfying `p` splits at its first such element. -/
theorem exists_first {α : Type} (p : α → Bool) (l : List α) (h : ∃ d ∈ l, p d = true) :
    ∃ pre d post, l = pre ++ d :: post ∧ p d = true ∧ ∀ x ∈ pre, p x = false := by
  induction l with
  | nil => obtain ⟨d, hd, _⟩ := h; cases hd
  | cons a l ih =>
    by_cases ha : p a = true
    · exact ⟨[], a, l, rfl, ha, fun x hx => by cases hx⟩
    · have ha2 : p a = false := by simpa using ha
      have h2 : ∃ d ∈ l, p d = true := by
        obtain ⟨d, hd, hpd⟩ := h
        rcases List.mem_cons.mp hd with rfl | hmem
        · exact absurd hpd ha
        · exact ⟨d, hmem, hpd⟩
      obtain ⟨pre, d, post, hl, hpd, hpre⟩ := ih h2
      refine ⟨a :: pre, d, post, by simp [hl], hpd, ?_⟩
      intro x hx
      rcases List.mem_cons.mp hx with rfl | hmem
      · exact ha2
      · exact hpre x hmem

/-- When no element satisfies `p`, `find?` finds nothing. -/
theorem find?_none_of_forall {α : Type} (p : α → Bool) (l : List α)
    (h : ∀ x ∈ l, p x = false) : l.find? p = none := by
  induction l with
  | nil => rfl
  | cons a l ih =>
    have ha : p a = false := h a (List.mem_cons_self a l)
    simp [List.find?, ha, ih (fun x hx => h x (List.mem_cons_of_mem a hx))]

/-- What `find?` returns is a member of the list and satisfies `p`. -/
theorem find?_some_spec {α : Type} (p : α → Bool) (l : List α) (a : α)
    (h : l.find? p = some a) : a ∈ l ∧ p a = true := by
  induction l with
  | nil => simp [List.find?] at h
  | cons b l ih =>
    by_cases hb : p b = true
    · simp [List.find?, hb] at h
      subst h
      exact ⟨List.mem_cons_self _ _, hb⟩
    · have hb2 : p b = false := by simpa using hb
      simp [List.find?, hb2] at h
      exact ⟨List.mem_cons_of_mem _ (ih h).1, (ih h).2⟩

/-- A percentage title never reads "Done!": the two differ in their first character. -/
theorem percentage_ne_done (s : String) : "Syncing... (" ++ s ++ "%" ≠ "Done!" := by
  intro h
  have h2 := congrArg String.data h
  simp only [String.data_append] at h2
  have h3 := congrArg List.head? h2
  revert h3
  simp

end Aux

/-! ## `createCandidatesQuery` -/

namespace Homepage

/-- With an empty dashboard list and both flags on, `createCandidatesQuery` is the
user database found by `find?`, else the sample database found by `find?`. -/
theorem createCandidatesQuery_open {Id Rest Dashboard : Type}
    (isSyncCompleted : Database Id Rest → Bool) (databases : Option (List (Database Id Rest))) :
    createCandidatesQuery isSyncCompleted databases (some ([] : List Dashboard)) true true =
      match (databases.getD []).find? (fun d => !d.is_sample && isSyncCompleted d) with
      | some u => some { id := u.id }
      | none =>
        match (databases.getD []).find? (fun d => d.is_sample && isSyncCompleted d) with
        | some s => some { id := s.id }
        | none => none := by
  simp [createCandidatesQuery, isFalsy, lengthTruthy]

/-- C1. Guard: when `dashboards` is undefined, or non-empty, or `showXrays` is false, or
`enableXrays` is false, `createCandidatesQuery` returns `undefined`, whatever the
databases (given or omitted) and their sync state. -/
theorem createCandidatesQuery_guard {Id Rest Dashboard : Type}
    (isSyncCompleted : Database Id Rest → Bool) (databases : Option (List (Database Id Rest)))
    (dashboards : Option (List Dashboard)) (showXrays enableXrays : Bool)
    (h : dashboards = none ∨ (∃ ds, dashboards = some ds ∧ ds ≠ []) ∨
      showXrays = false ∨ enableXrays = false) :
    createCandidatesQuery isSyncCompleted databases dashboards showXrays enableXrays = none := by
  unfold createCandidatesQuery
  rcases h with h | ⟨ds, h, hne⟩ | h | h
  · subst h; simp [isFalsy]
  · subst h
    have hlen : ds.length ≠ 0 := fun h0 => hne (List.length_eq_zero.mp h0)
    simp [isFalsy, lengthTruthy, hlen, hne]
  · subst h; simp
  · subst h; simp

/-- Witness for C1: a synced user database, one existing dashboard, both flags on. -/
theorem createCandidatesQuery_guard_witness :
    ((some [()] : Option (List Unit)) = none ∨ (∃ ds, (some [()] : Option (List Unit)) = some ds ∧ ds ≠ []) ∨
      true = false ∨ true = false) ∧
    createCandidatesQuery (fun d : Database String Bool => d.rest)
      (some [{ id := "u1", is_sample := false, rest := true }]) (some [()]) true true = none :=
  ⟨Or.inr (Or.inl ⟨[()], rfl, by simp⟩),
   createCandidatesQuery_guard _ _ _ _ _ (Or.inr (Or.inl ⟨[()], rfl, by simp⟩))⟩

/-- C2. User database preferred: with `dashboards = []` and both flags on, if the list
contains a non-sample database whose sync is completed, the list splits at the first
such database `d` (none of the databases before it is both non-sample and synced) and
the result is `{ id: d.id }`; sample databases, wherever they stand, play no role. -/
theorem createCandidatesQuery_user_preferred {Id Rest Dashboard : Type}
    (isSyncCompleted : Database Id Rest → Bool) (databases : List (Database Id Rest))
    (h : ∃ d ∈ databases, d.is_sample = false ∧ isSyncCompleted d = true) :
    ∃ pre d post, databases = pre ++ d :: post ∧
      d.is_sample = false ∧ isSyncCompleted d = true ∧
      (∀ x ∈ pre, ¬ (x.is_sample = false ∧ isSyncCompleted x = true)) ∧
      createCandidatesQuery isSyncCompleted (some databases) (some ([] : List Dashboard))
        true true = some { id := d.id } := by
  have h2 : ∃ d ∈ databases, (fun d => !d.is_sample && isSyncCompleted d) d = true := by
    obtain ⟨d, hd, hs, hc⟩ := h
    exact ⟨d, hd, by simp [hs, hc]⟩
  obtain ⟨pre, d, post, hl, hpd, hpre⟩ := Aux.exists_first _ databases h2
  have hd : d.is_sample = false ∧ isSyncCompleted d = true := by simpa using hpd
  refine ⟨pre, d, post, hl, hd.1, hd.2, ?_, ?_⟩
  · intro x hx hcon
    have := hpre x hx
    simp [hcon.1, hcon.2] at this
  · rw [createCandidatesQuery_open, hl]
    simp only [Option.getD_some]
    rw [Aux.find?_append_first _ pre post d hpd hpre]

/-- Witness for C2: a synced sample database `s1` listed before a synced user database `u1`. -/
theorem createCandidatesQuery_user_preferred_witness :
    (∃ d ∈ ([{ id := "s1", is_sample := true, rest := true },
        { id := "u1", is_sample := false, rest := true }] : List (Database String Bool)),
      d.is_sample = false ∧ d.rest = true) ∧
    ∃ pre d post, ([{ id := "s1", is_sample := true, rest := true },
        { id := "u1", is_sample := false, rest := true }] : List (Database String Bool))
        = pre ++ d :: post ∧
      d.is_sample = false ∧ d.rest = true ∧
      (∀ x ∈ pre, ¬ (x.is_sample = false ∧ x.rest = true)) ∧
      createCandidatesQuery (fun d : Database String Bool => d.rest)
        (some [{ id := "s1", is_sample := true, rest := true },
          { id := "u1", is_sample := false, rest := true }]) (some ([] : List Unit))
        true true = some { id := d.id } :=
  ⟨⟨{ id := "u1", is_sample := false, rest := true }, by simp, rfl, rfl⟩,
   createCandidatesQuery_user_preferred (fun d : Database String Bool => d.rest) _
     ⟨{ id := "u1", is_sample := false, rest := true }, by simp, rfl, rfl⟩⟩

/-- C3. Sample fallback: with `dashboards = []` and both flags on, if no non-sample
database of the list is synced but some sample database is, the list splits at the
first synced sample database `d` and the result is `{ id: d.id }`; unsynced non-sample
databases do not prevent this. -/
theorem createCandidatesQuery_sample_fallback {Id Rest Dashboard : Type}
    (isSyncCompleted : Database Id Rest → Bool) (databases : List (Database Id Rest))
    (hno : ∀ x ∈ databases, x.is_sample = false → isSyncCompleted x = false)
    (h : ∃ d ∈ databases, d.is_sample = true ∧ isSyncCompleted d = true) :
    ∃ pre d post, databases = pre ++ d :: post ∧
      d.is_sample = true ∧ isSyncCompleted d = true ∧
      (∀ x ∈ pre, ¬ (x.is_sample = true ∧ isSyncCompleted x = true)) ∧
      createCandidatesQuery isSyncCompleted (some databases) (some ([] : List Dashboard))
        true true = some { id := d.id } := by
  have h2 : ∃ d ∈ databases, (fun d => d.is_sample && isSyncCompleted d) d = true := by
    obtain ⟨d, hd, hs, hc⟩ := h
    exact ⟨d, hd, by simp [hs, hc]⟩
  obtain ⟨pre, d, post, hl, hpd, hpre⟩ := Aux.exists_first _ databases h2
  have hd : d.is_sample = true ∧ isSyncCompleted d = true := by simpa using hpd
  have huser : databases.find? (fun d => !d.is_sample && isSyncCompleted d) = none := by
    apply Aux.find?_none_of_forall
    intro x hx
    cases hs : x.is_sample
    · simp [hno x hx hs]
    · simp
  refine ⟨pre, d, post, hl, hd.1, hd.2, ?_, ?_⟩
  · intro x hx hcon
    have := hpre x hx
    simp [hcon.1, hcon.2] at this
  · rw [createCandidatesQuery_open]
    simp only [Option.getD_some]
    rw [huser, hl, Aux.find?_append_first _ pre post d hpd hpre]

/-- Witness for C3: an unsynced user database `u1` listed before a synced sample database `s1`. -/
theorem createCandidatesQuery_sample_fallback_witness :
    (∀ x ∈ ([{ id := "u1", is_sample := false, rest := false },
        { id := "s1", is_sample := true, rest := true }] : List (Database String Bool)),
      x.is_sample = false → x.rest = false) ∧
    (∃ d ∈ ([{ id := "u1", is_sample := false, rest := false },
        { id := "s1", is_sample := true, rest := true }] : List (Database String Bool)),
      d.is_sample = true ∧ d.rest = true) ∧
    ∃ pre d post, ([{ id := "u1", is_sample := false, rest := false },
        { id := "s1", is_sample := true, rest := true }] : List (Database String Bool))
        = pre ++ d :: post ∧
      d.is_sample = true ∧ d.rest = true ∧
      (∀ x ∈ pre, ¬ (x.is_sample = true ∧ x.rest = true)) ∧
      createCandidatesQuery (fun d : Database String Bool => d.rest)
        (some [{ id := "u1", is_sample := false, rest := false },
          { id := "s1", is_sample := true, rest := true }]) (some ([] : List Unit))
        true true = some { id := d.id } :=
  ⟨by simp, ⟨{ id := "s1", is_sample := true, rest := true }, by simp, rfl, rfl⟩,
   createCandidatesQuery_sample_fallback (fun d : Database String Bool => d.rest) _ (by simp)
     ⟨{ id := "s1", is_sample := true, rest := true }, by simp, rfl, rfl⟩⟩

/-- C4. No candidate without a synced database: with `dashboards = []` and both flags on,
the result is `undefined` exactly when no database of the list (the empty list when the
argument is omitted) has its sync completed; and a returned `{ id }` carries the id of a
database of the list whose sync is completed. -/
theorem createCandidatesQuery_none_iff {Id Rest Dashboard : Type}
    (isSyncCompleted : Database Id Rest → Bool) (databases : Option (List (Database Id Rest))) :
    (createCandidatesQuery isSyncCompleted databases (some ([] : List Dashboard)) true true = none ↔
      ∀ d ∈ databases.getD [], isSyncCompleted d = false) ∧
    (∀ c, createCandidatesQuery isSyncCompleted databases (some ([] : List Dashboard)) true true
        = some c →
      ∃ d ∈ databases.getD [], isSyncCompleted d = true ∧ c.id = d.id) ∧
    createCandidatesQuery isSyncCompleted (none : Option (List (Database Id Rest)))
      (some ([] : List Dashboard)) true true = none ∧
    createCandidatesQuery isSyncCompleted (some []) (some ([] : List Dashboard)) true true
      = none := by
  refine ⟨?_, ?_, ?_, ?_⟩
  · rw [createCandidatesQuery_open]
    constructor
    · intro hres d hd
      cases hu : (databases.getD []).find? (fun d => !d.is_sample && isSyncCompleted d) with
      | some u => rw [hu] at hres; simp at hres
      | none =>
        rw [hu] at hres
        cases hs : (databases.getD []).find? (fun d => d.is_sample && isSyncCompleted d) with
        | some s => rw [hs] at hres; simp at hres
        | none =>
          have h1 := List.find?_eq_none.mp hu d hd
          have h2 := List.find?_eq_none.mp hs d hd
          cases hsync : isSyncCompleted d
          · rfl
          · cases hsam : d.is_sample <;> simp [hsync, hsam] at h1 h2
    · intro hall
      rw [Aux.find?_none_of_forall _ _ (fun x hx => by simp [hall x hx]),
        Aux.find?_none_of_forall _ _ (fun x hx => by simp [hall x hx])]
  · intro c hc
    rw [createCandidatesQuery_open] at hc
    cases hu : (databases.getD []).find? (fun d => !d.is_sample && isSyncCompleted d) with
    | some u =>
      rw [hu] at hc
      have hspec := Aux.find?_some_spec _ _ _ hu
      simp at hc
      refine ⟨u, hspec.1, ?_, by rw [← hc]⟩
      have := hspec.2
      simp at this
      exact this.2
    | none =>
      rw [hu] at hc
      cases hs : (databases.getD []).find? (fun d => d.is_sample && isSyncCompleted d) with
      | some s =>
        rw [hs] at hc
        have hspec := Aux.find?_some_spec _ _ _ hs
        simp at hc
        refine ⟨s, hspec.1, ?_, by rw [← hc]⟩
        have := hspec.2
        simp at this
        exact this.2
      | none => rw [hs] at hc; simp at hc
  · rfl
  · rfl

end Homepage

/-! ## `getTitleMessage` and `getDescriptionMessage` -/

namespace SyncStatus

/-- The tables entering the title: those of the head database unless it is synced. -/
theorem titleTables_cons (d : Database) (ds : List Database) :
    titleTables (d :: ds) = if d.initial_sync then titleTables ds else d.tables ++ titleTables ds := by
  cases h : d.initial_sync <;> simp [titleTables, List.filter, h]

/-- No tables enter the title when every syncing database has an empty table list. -/
theorem titleTables_eq_nil (databases : List Database)
    (h : ∀ d ∈ databases, d.initial_sync = false → d.tables = []) : titleTables databases = [] := by
  induction databases with
  | nil => rfl
  | cons d ds ih =>
    rw [titleTables_cons, ih (fun x hx => h x (List.mem_cons_of_mem d hx))]
    cases hd : d.initial_sync
    · simp [h d (List.mem_cons_self d ds) hd]
    · simp

/-- Databases related position by position (same flag, same tables when syncing)
contribute the same tables to the title. -/
theorem titleTables_congr (dbs₁ dbs₂ : List Database)
    (h : List.Forall₂ (fun a b : Database =>
      a.initial_sync = b.initial_sync ∧ (a.initial_sync = false → a.tables = b.tables)) dbs₁ dbs₂) :
    titleTables dbs₁ = titleTables dbs₂ := by
  induction h with
  | nil => rfl
  | @cons a b l₁ l₂ hab _ ih =>
    rw [titleTables_cons, titleTables_cons, ih, ← hab.1]
    cases ha : a.initial_sync
    · simp [hab.2 ha]
    · simp

/-- Databases related position by position have the same `done` flag. -/
theorem all_synced_congr (dbs₁ dbs₂ : List Database)
    (h : List.Forall₂ (fun a b : Database =>
      a.initial_sync = b.initial_sync ∧ (a.initial_sync = false → a.tables = b.tables)) dbs₁ dbs₂) :
    dbs₁.all (fun d => d.initial_sync) = dbs₂.all (fun d => d.initial_sync) := by
  induction h with
  | nil => rfl
  | cons hab _ ih => simp only [List.all_cons, ih, hab.1]

/-- Completed tables over all databases: those entering the title plus those of the
fully synced databases. -/
theorem countP_all_eq (databases : List Database) :
    (specAllDatabasesTables databases).countP (fun t => t.initial_sync) =
      (titleTables databases).countP (fun t => t.initial_sync) +
      ((databases.filter (fun d => d.initial_sync)).flatMap (fun d => d.tables)).countP
        (fun t => t.initial_sync) := by
  induction databases with
  | nil => rfl
  | cons d ds ih =>
    have hall : specAllDatabasesTables (d :: ds) = d.tables ++ specAllDatabasesTables ds := by
      simp [specAllDatabasesTables]
    rw [hall, titleTables_cons, List.countP_append, ih]
    cases hd : d.initial_sync
    · simp [List.filter, hd, List.countP_append]; omega
    · simp [List.filter, hd, List.countP_append]; omega

/-- The tables entering the title are no more than the tables of all databases. -/
theorem length_titleTables_le (databases : List Database) :
    (titleTables databases).length ≤ (specAllDatabasesTables databases).length := by
  induction databases with
  | nil => simp [titleTables, specAllDatabasesTables]
  | cons d ds ih =>
    have hall : specAllDatabasesTables (d :: ds) = d.tables ++ specAllDatabasesTables ds := by
      simp [specAllDatabasesTables]
    rw [hall, titleTables_cons]
    cases hd : d.initial_sync
    · simp; exact ih
    · simp; omega

/-- C5. Done title: `getTitleMessage` returns "Done!" exactly when every database of the
list has `initial_sync` true, for both values of `isOpened` and whatever the tables. -/
theorem getTitleMessage_done_iff (databases : List Database) (isOpened : Bool) :
    getTitleMessage databases isOpened = "Done!" ↔ ∀ d ∈ databases, d.initial_sync = true := by
  unfold getTitleMessage
  by_cases hall : databases.all (fun d => d.initial_sync) = true
  · simp only [hall, if_true, true_iff]
    exact fun d hd => List.all_eq_true.mp hall d hd
  · have hnot : ¬ ∀ d ∈ databases, d.initial_sync = true := fun h => hall (List.all_eq_true.mpr h)
    simp only [hall, hnot, iff_false]
    by_cases hc : (isOpened && (titleTables databases).length != 0) = true
    · simp only [hc, if_true]
      exact Aux.percentage_ne_done _
    · simp only [hc, Bool.false_eq_true, if_false]
      decide

/-- C6. Title percentage at 29 completed tables out of 50: the title shows 57, whereas
`floor(100 × 29 / 50)` is 58; the quotient `29 / 50` is rounded to a binary64 value just
below 0.58 before it is multiplied by 100. -/
theorem getTitleMessage_percentage_29_of_50 :
    (titleTables [syncingDatabase 29 50]).length = 50 ∧
    ((titleTables [syncingDatabase 29 50]).filter (fun t => t.initial_sync)).length = 29 ∧
    100 * 29 / 50 = 58 ∧
    JS.div 29 50 = JS.Number.fin 5224175567749775 9007199254740992 ∧
    JS.mul (JS.div 29 50) 100 = JS.Number.fin 8162774324609023 140737488355328 ∧
    getTitleMessage [syncingDatabase 29 50] true = "Syncing... (57%" := by
  decide

/-- C7. Generic title: when some database is not synced, and the popup is closed or the
databases that are not synced have no tables at all, `getTitleMessage` returns exactly
"Syncing...", so the quotient by a zero total is never shown. -/
theorem getTitleMessage_generic (databases : List Database) (isOpened : Bool)
    (hsome : ∃ d ∈ databases, d.initial_sync = false)
    (h : isOpened = false ∨ ∀ d ∈ databases, d.initial_sync = false → d.tables = []) :
    getTitleMessage databases isOpened = "Syncing..." := by
  have hall : databases.all (fun d => d.initial_sync) = false := by
    obtain ⟨d, hd, hf⟩ := hsome
    cases hb : databases.all (fun d => d.initial_sync)
    · rfl
    · have := List.all_eq_true.mp hb d hd
      simp [hf] at this
  unfold getTitleMessage
  rcases h with h | h
  · simp [hall, h]
  · simp [hall, titleTables_eq_nil databases h]

/-- Witness for C7: one syncing database without tables, popup opened. -/
theorem getTitleMessage_generic_witness :
    (∃ d ∈ [({ id := 1, name := "db", initial_sync := false, tables := [] } : Database)],
      d.initial_sync = false) ∧
    (true = false ∨
      ∀ d ∈ [({ id := 1, name := "db", initial_sync := false, tables := [] } : Database)],
        d.initial_sync = false → d.tables = []) ∧
    getTitleMessage [{ id := 1, name := "db", initial_sync := false, tables := [] }] true
      = "Syncing..." :=
  ⟨⟨_, List.mem_singleton.mpr rfl, rfl⟩, Or.inr (by simp),
   getTitleMessage_generic _ true ⟨_, List.mem_singleton.mpr rfl, rfl⟩ (Or.inr (by simp))⟩

/-- C8. Per-database description: `getDescriptionMessage` returns "<d> of <n> done" with
`n` the length of the database's own table list and `d ≤ n` the number of its tables
with `initial_sync` true, whatever the database's id, name and own `initial_sync` flag;
for an empty table list it is "0 of 0 done". -/
theorem getDescriptionMessage_counts (id : Nat) (name : String) (initial_sync : Bool)
    (tables : List Table) :
    getDescriptionMessage { id := id, name := name, initial_sync := initial_sync, tables := tables }
      = Nat.repr (tables.countP (fun t => t.initial_sync)) ++ " of " ++ Nat.repr tables.length
        ++ " done" ∧
    tables.countP (fun t => t.initial_sync) ≤ tables.length ∧
    getDescriptionMessage { id := id, name := name, initial_sync := initial_sync, tables := [] }
      = "0 of 0 done" := by
  refine ⟨?_, List.countP_le_length _, ?_⟩
  · simp only [getDescriptionMessage, List.countP_eq_length_filter]
  · simp only [getDescriptionMessage, List.filter_nil, List.length_nil]
    decide

/-- C9. Fully synced databases are skipped by the title: two database lists of the same
length that agree, position by position, on the `initial_sync` flag and, where the flag
is false, on the table list, get the same title for every `isOpened`. -/
theorem getTitleMessage_ignores_synced (dbs₁ dbs₂ : List Database) (isOpened : Bool)
    (h : List.Forall₂ (fun a b : Database =>
      a.initial_sync = b.initial_sync ∧ (a.initial_sync = false → a.tables = b.tables)) dbs₁ dbs₂) :
    getTitleMessage dbs₁ isOpened = getTitleMessage dbs₂ isOpened := by
  unfold getTitleMessage
  rw [titleTables_congr dbs₁ dbs₂ h, all_synced_congr dbs₁ dbs₂ h]

/-- Witness for C9: the tables of the synced first database differ, the title does not. -/
theorem getTitleMessage_ignores_synced_witness :
    List.Forall₂ (fun a b : Database =>
      a.initial_sync = b.initial_sync ∧ (a.initial_sync = false → a.tables = b.tables))
      [{ id := 1, name := "a", initial_sync := true,
          tables := [{ initial_sync := false }, { initial_sync := true }] },
        { id := 2, name := "b", initial_sync := false,
          tables := [{ initial_sync := true }, { initial_sync := false }] }]
      [{ id := 1, name := "a", initial_sync := true, tables := [] },
        { id := 2, name := "b", initial_sync := false,
          tables := [{ initial_sync := true }, { initial_sync := false }] }] ∧
    getTitleMessage
      [{ id := 1, name := "a", initial_sync := true,
          tables := [{ initial_sync := false }, { initial_sync := true }] },
        { id := 2, name := "b", initial_sync := false,
          tables := [{ initial_sync := true }, { initial_sync := false }] }] true =
    getTitleMessage
      [{ id := 1, name := "a", initial_sync := true, tables := [] },
        { id := 2, name := "b", initial_sync := false,
          tables := [{ initial_sync := true }, { initial_sync := false }] }] true :=
  ⟨List.Forall₂.cons ⟨rfl, fun hf => Bool.noConfusion hf⟩
      (List.Forall₂.cons ⟨rfl, fun _ => rfl⟩ List.Forall₂.nil),
   getTitleMessage_ignores_synced _ _ true
     (List.Forall₂.cons ⟨rfl, fun hf => Bool.noConfusion hf⟩
      (List.Forall₂.cons ⟨rfl, fun _ => rfl⟩ List.Forall₂.nil))⟩

/-- C10, as stated, fails: for one fully synced database with one completed table, the
completed count over all databases is 1 and the count `getTitleMessage` computes is 0. -/
theorem doneCount_all_ne_title :
    ((specAllDatabasesTables
        [{ id := 1, name := "db", initial_sync := true, tables := [{ initial_sync := true }] }]).filter
      (fun t => t.initial_sync)).length = 1 ∧
    ((titleTables
        [{ id := 1, name := "db", initial_sync := true, tables := [{ initial_sync := true }] }]).filter
      (fun t => t.initial_sync)).length = 0 ∧
    ¬ ∀ databases : List Database,
      ((specAllDatabasesTables databases).filter (fun t => t.initial_sync)).length =
        ((titleTables databases).filter (fun t => t.initial_sync)).length := by
  refine ⟨by decide, by decide, fun h => ?_⟩
  have h1 := h [{ id := 1, name := "db", initial_sync := true, tables := [{ initial_sync := true }] }]
  revert h1
  decide

/-- C10, amended. The completed count over the tables of all databases is at least the
`doneCount` of `getTitleMessage`, with equality exactly when no database with
`initial_sync` true has a table with `initial_sync` true; and the total over all
databases is at least the `totalCount` of `getTitleMessage`. -/
theorem doneCount_title_le_all (databases : List Database) :
    ((titleTables databases).filter (fun t => t.initial_sync)).length ≤
      ((specAllDatabasesTables databases).filter (fun t => t.initial_sync)).length ∧
    (((specAllDatabasesTables databases).filter (fun t => t.initial_sync)).length =
        ((titleTables databases).filter (fun t => t.initial_sync)).length ↔
      ∀ d ∈ databases, d.initial_sync = true → ∀ t ∈ d.tables, t.initial_sync = false) ∧
    (titleTables databases).length ≤ (specAllDatabasesTables databases).length := by
  have hsum := countP_all_eq databases
  have hzero : ((databases.filter (fun d => d.initial_sync)).flatMap (fun d => d.tables)).countP
      (fun t => t.initial_sync) = 0 ↔
      ∀ d ∈ databases, d.initial_sync = true → ∀ t ∈ d.tables, t.initial_sync = false := by
    rw [List.countP_eq_zero]
    constructor
    · intro h d hd hs t ht
      have := h t (List.mem_flatMap.mpr ⟨d, List.mem_filter.mpr ⟨hd, hs⟩, ht⟩)
      simpa using this
    · intro h t ht
      obtain ⟨d, hd, htd⟩ := List.mem_flatMap.mp ht
      have hd2 := List.mem_filter.mp hd
      simp [h d hd2.1 hd2.2 t htd]
  simp only [← List.countP_eq_length_filter]
  refine ⟨by omega, ?_, length_titleTables_le databases⟩
  rw [← hzero]
  omega

end SyncStatus
